import Mathlib

/-!
# ElevenLabs MCP launcher: `bin/elevenlabs-mcp-enhanced.js`

A shallow embedding of the launcher script.  The operating system is an
explicit record of oracles (`World`): the path lookup `which`, the synchronous
sub-processes of `spawn.sync`, the delegated child of `spawn`, and
`path.join`.  A run of `main` is the list of observable events it performs, in
order, together with the code given to `process.exit`.

JavaScript values are embedded as follows.
* `undefined` / `null` are `none`; a string is truthy iff it is non-empty.
* `Array.prototype.indexOf` returns `none` where JavaScript returns `-1`.
* A Number returned by `parseInt` for a run of ASCII digits is a `JsNumber`:
  a finite double with a non-negative integer value, or `Infinity`.  The
  decimal value of the run is converted by `toNumber`: it is kept exactly
  below 2^53, rounded to the nearest double (ties to even) from there on, and
  becomes `Infinity` when the rounded value reaches 2^1024.
-/

set_option autoImplicit false

namespace ElevenLabsMcp

/-! ## JavaScript primitives used by the script -/

/-- Truthiness of a value that is either `undefined` or a string. -/
def truthy : Option String → Bool
  | none => false
  | some s => s != ""

/-- The function `Array.prototype.indexOf`, counting from `k`; `none` is `-1`. -/
def indexOfFrom (x : String) : List String → Nat → Option Nat
  | [], _ => none
  | y :: ys, k => if y = x then some k else indexOfFrom x ys (k + 1)

/-- The function `Array.prototype.indexOf`; `none` stands for `-1`. -/
def indexOf (xs : List String) (x : String) : Option Nat :=
  indexOfFrom x xs 0

/-- The call `xs.splice(start, deleteCount)`: the array left behind. -/
def splice (xs : List String) (start deleteCount : Nat) : List String :=
  xs.take start ++ xs.drop (start + deleteCount)

/-- The function `Array.prototype.includes` on an array of strings. -/
def includes (xs : List String) (x : String) : Bool :=
  xs.any (fun y => y == x)

/-- An environment object: property names with their string values. -/
abbrev Env := List (String × String)

/-- Property read `env.KEY`; `none` is `undefined`. -/
def Env.get (e : Env) (k : String) : Option String :=
  match e with
  | [] => none
  | (k', v) :: rest => if k' = k then some v else Env.get rest k

/-- Property write `env.KEY = v`: replaces an existing property, else adds it. -/
def Env.set (e : Env) (k v : String) : Env :=
  match e with
  | [] => [(k, v)]
  | (k', v') :: rest => if k' = k then (k, v) :: rest else (k', v') :: Env.set rest k v

/-! ## Numbers -/

/-- A Number that `parseInt` returns for a run of digits: a finite double whose
value is the non-negative integer `value`, or `Infinity`. -/
inductive JsNumber where
  | finite (value : Nat)
  | infinity
  deriving DecidableEq, Repr

/-- The position of the leading binary digit of `n`, computed with at most
`fuel` halvings. -/
def floorLog2Fuel : Nat → Nat → Nat
  | 0, _ => 0
  | fuel + 1, n => if n < 2 then 0 else floorLog2Fuel fuel (n / 2) + 1

/-- The position of the leading binary digit of `n` (0 for `n < 2`). -/
def floorLog2 (n : Nat) : Nat := floorLog2Fuel n n

/-- The Number value of the non-negative integer `n`: `n` itself below 2^53;
otherwise the 53 leading binary digits `q` are kept, the remainder `r` of the
`e` dropped digits rounds `q` to the nearest, ties to even, and the result is
`Infinity` when it no longer lies below 2^1024. -/
def toNumber (n : Nat) : JsNumber :=
  if n < 2 ^ 53 then JsNumber.finite n
  else
    let e := floorLog2 n - 52
    let q := n / 2 ^ e
    let r := n % 2 ^ e
    let q1 := if 2 ^ e < 2 * r ∨ (2 * r = 2 ^ e ∧ q % 2 = 1) then q + 1 else q
    if floorLog2 (q1 * 2 ^ e) < 1024 then JsNumber.finite (q1 * 2 ^ e)
    else JsNumber.infinity

/-- The comparison `x > y` of two Numbers. -/
def JsNumber.gt : JsNumber → JsNumber → Bool
  | JsNumber.finite a, JsNumber.finite b => decide (a > b)
  | JsNumber.infinity, JsNumber.finite _ => true
  | _, JsNumber.infinity => false

/-- The comparison `x >= y` of two Numbers. -/
def JsNumber.ge : JsNumber → JsNumber → Bool
  | JsNumber.finite a, JsNumber.finite b => decide (a ≥ b)
  | JsNumber.infinity, _ => true
  | JsNumber.finite _, JsNumber.infinity => false

/-- The comparison `x === y` of two Numbers. -/
def JsNumber.strictEq (x y : JsNumber) : Bool := x == y

/-! ## The regular expression `/Python (\d+)\.(\d+)/` -/

/-- The class `\d` (without the unicode flag): ASCII digits only. -/
def isDigit (c : Char) : Bool :=
  decide ('0'.toNat ≤ c.toNat) && decide (c.toNat ≤ '9'.toNat)

/-- The function `parseInt` on a run of ASCII digits: the Number value of the
integer that the digits denote in radix 10. -/
def parseInt (ds : List Char) : JsNumber :=
  toNumber (ds.foldl (fun n c => 10 * n + (c.toNat - '0'.toNat)) 0)

/-- Matches the literal `lit` at the head of `s`; returns what follows it. -/
def matchLiteral : List Char → List Char → Option (List Char)
  | [], s => some s
  | _ :: _, [] => none
  | l :: ls, c :: cs => if l = c then matchLiteral ls cs else none

/-- The greedy `\d+`: the longest run of digits at the head, and the rest. -/
def takeDigits : List Char → List Char × List Char
  | [] => ([], [])
  | c :: cs =>
    if isDigit c then ((c :: (takeDigits cs).1), (takeDigits cs).2) else ([], c :: cs)

/-- An attempt to match `/Python (\d+)\.(\d+)/` starting exactly at the head of
`s`; the result is the pair of capture groups.  A greedy `\d+` never has to
give back a digit here: after a shorter run the next character is a digit,
which is neither `.` nor needed by the end of the pattern. -/
def matchHere (s : List Char) : Option (List Char × List Char) :=
  match matchLiteral "Python ".toList s with
  | none => none
  | some r =>
    match takeDigits r with
    | ([], _) => none
    | (d1, '.' :: r1) =>
      match takeDigits r1 with
      | ([], _) => none
      | (d2, _) => some (d1, d2)
    | (_, _) => none

/-- The leftmost match of `/Python (\d+)\.(\d+)/` in `s` (no `g` flag): start
positions are tried from left to right. -/
def matchFrom : List Char → Option (List Char × List Char)
  | [] => none
  | c :: cs =>
    match matchHere (c :: cs) with
    | some m => some m
    | none => matchFrom cs

/-- The expression `stdout.match(/Python (\d+)\.(\d+)/)` followed by `parseInt`
of `version[1]` and `version[2]`: the version parser of `findPython`. -/
def parseVersion (stdout : String) : Option (JsNumber × JsNumber) :=
  match matchFrom stdout.toList with
  | none => none
  | some (d1, d2) => some (parseInt d1, parseInt d2)

/-- The qualification test of `findPython`:
`major > 3 || (major === 3 && minor >= 11)`. -/
def qualifies (major minor : JsNumber) : Bool :=
  major.gt (JsNumber.finite 3) ||
    (major.strictEq (JsNumber.finite 3) && minor.ge (JsNumber.finite 11))

/-! ## The operating system -/

/-- What the delegated child reports first: an `error` event with a message,
or an `exit` event whose code is `null` when a signal ended the child. -/
inductive ChildEvent where
  | error (message : String)
  | exit (code : Option Nat)
  deriving DecidableEq, Repr

/-- The oracles the script consults. -/
structure World where
  /-- The object `process.env`, after `dotenv` has been loaded. -/
  env : Env
  /-- The value of `__dirname`. -/
  dirname : String
  /-- The function `path.join`. -/
  pathJoin : List String → String
  /-- The lookup `which(cmd)`; `none` when the promise rejects. -/
  which : String → Option String
  /-- The field `stdout` of `spawn.sync(cmd, ['--version'])`. -/
  versionStdout : String → Option String
  /-- The field `status` of `spawn.sync(pythonPath, ['-c', 'import elevenlabs_mcp'])`. -/
  importStatus : String → Option Nat
  /-- The field `status` of `spawn.sync('node', [setupPath])`. -/
  setupStatus : Option Nat
  /-- The first event of the delegated child, if it ever emits one. -/
  child : Option ChildEvent

/-- The observable actions of the script. -/
inductive Event where
  | consoleLog (line : String)
  | consoleError (line : String)
  | whichLookup (cmd : String)
  | spawnSync (cmd : String) (args : List String)
  | spawnChild (cmd : String) (args : List String) (cwd : String) (env : Env)
  deriving DecidableEq, Repr

/-- A run: the events in order and the code passed to `process.exit`
(`none` when the child never emits an event and the parent keeps waiting). -/
structure Outcome where
  trace : List Event
  exitCode : Option Nat
  deriving DecidableEq, Repr

/-! ## `findPython` -/

/-- The array `pythonCommands`. -/
def pythonCommands : List String := ["python3", "python"]

/-- The message of the error thrown by `findPython`. -/
def notFoundMessage : String :=
  "Python 3.11+ is required but not found. Please install Python 3.11 or higher."

/-- The condition under which the loop body returns, once `which` succeeded:
`result.stdout` is truthy, the pattern matches and the version qualifies. -/
def versionOk (stdout : Option String) : Bool :=
  match stdout with
  | none => false
  | some out =>
    if truthy (some out) then
      match parseVersion out with
      | none => false
      | some (major, minor) => qualifies major minor
    else false

/-- The `for` loop of `findPython` over the remaining candidates.  A rejected
`which` lands in the empty `catch` and the loop goes on. -/
def findPythonLoop (w : World) : List String → List Event × Option String
  | [] => ([], none)
  | cmd :: rest =>
    match w.which cmd with
    | none =>
      (Event.whichLookup cmd :: (findPythonLoop w rest).1, (findPythonLoop w rest).2)
    | some pythonPath =>
      if versionOk (w.versionStdout cmd) then
        ([Event.whichLookup cmd, Event.spawnSync cmd ["--version"]], some pythonPath)
      else
        (Event.whichLookup cmd :: Event.spawnSync cmd ["--version"] ::
          (findPythonLoop w rest).1, (findPythonLoop w rest).2)

/-- The function `findPython`: the events performed and the returned path, or
the message of the thrown error. -/
def findPython (w : World) : List Event × Except String String :=
  match findPythonLoop w pythonCommands with
  | (t, some pythonPath) => (t, Except.ok pythonPath)
  | (t, none) => (t, Except.error notFoundMessage)

/-! ## `main` -/

/-- Lines 36-46 of `main`: the secret and the arguments left after the
`--api-key` handling. -/
def parseArgs (w : World) (argv : List String) : Option String × List String :=
  let apiKey := w.env.get "ELEVENLABS_API_KEY"
  let args := argv.drop 2
  match indexOf args "--api-key" with
  | none => (apiKey, args)
  | some apiKeyIndex =>
    if truthy (args.get? (apiKeyIndex + 1)) then
      (args.get? (apiKeyIndex + 1), splice args apiKeyIndex 2)
    else (apiKey, args)

/-- The condition of line 48, under which `main` reports the missing
credential and exits. -/
def credentialMissing (apiKey : Option String) (args : List String) : Bool :=
  !truthy apiKey && !includes args "--help" && !includes args "-h"

/-- The three lines written to the error stream at lines 49-51. -/
def credentialErrors : List Event :=
  [Event.consoleError
     "Error: ELEVENLABS_API_KEY environment variable or --api-key argument is required",
   Event.consoleError
     "Usage: npx @199-biotechnologies/elevenlabs-mcp-enhanced --api-key YOUR_API_KEY",
   Event.consoleError "Or set ELEVENLABS_API_KEY environment variable"]

/-- Lines 62-65: the environment handed to the child. -/
def childEnv (w : World) (apiKey : Option String) : Env :=
  match apiKey with
  | some k => if truthy (some k) then w.env.set "ELEVENLABS_API_KEY" k else w.env
  | none => w.env

/-- The manual fallback instruction of line 82. -/
def fallbackMessage : String :=
  "Failed to install dependencies. Please run: pip install elevenlabs mcp"

/-- The import check of line 68. -/
def importCheck (pythonPath : String) : Event :=
  Event.spawnSync pythonPath ["-c", "import elevenlabs_mcp"]

/-- The installation procedure of line 76. -/
def setupRun (w : World) : Event :=
  Event.spawnSync "node" [w.pathJoin [w.dirname, "..", "scripts", "setup.js"]]

/-- Lines 98-105: the handlers of the child's `error` and `exit` events. -/
def onChild : Option ChildEvent → List Event × Option Nat
  | none => ([], none)
  | some (ChildEvent.error message) =>
    ([Event.consoleError ("Failed to start server: " ++ message)], some 1)
  | some (ChildEvent.exit code) =>
    ([], some (match code with
      | none => 0
      | some c => if c = 0 then 0 else c))

/-- Lines 87-105: launching the server and waiting for it. -/
def delegate (w : World) (pythonPath : String) (args : List String) (env : Env) :
    Outcome :=
  let pythonArgs := ["-m", "elevenlabs_mcp"] ++ args
  { trace :=
      [Event.consoleLog "Starting ElevenLabs MCP Enhanced server...",
       Event.spawnChild pythonPath pythonArgs (w.pathJoin [w.dirname, ".."]) env]
        ++ (onChild w.child).1
    exitCode := (onChild w.child).2 }

/-- Lines 67-105: the dependency check, the installation and the launch. -/
def ensureAndDelegate (w : World) (pythonPath : String) (args : List String)
    (env : Env) : Outcome :=
  if w.importStatus pythonPath != some 0 then
    if w.setupStatus != some 0 then
      { trace :=
          [importCheck pythonPath,
           Event.consoleLog "Python dependencies not found. Installing...",
           setupRun w,
           Event.consoleError fallbackMessage]
        exitCode := some 1 }
    else
      { trace :=
          [importCheck pythonPath,
           Event.consoleLog "Python dependencies not found. Installing...",
           setupRun w] ++ (delegate w pythonPath args env).trace
        exitCode := (delegate w pythonPath args env).exitCode }
  else
    { trace := importCheck pythonPath :: (delegate w pythonPath args env).trace
      exitCode := (delegate w pythonPath args env).exitCode }

/-- The function `main`, given `process.argv`. -/
def main (w : World) (argv : List String) : Outcome :=
  match parseArgs w argv with
  | (apiKey, args) =>
    if credentialMissing apiKey args then
      { trace := credentialErrors, exitCode := some 1 }
    else
      match findPython w with
      | (t, Except.error message) =>
        { trace := t ++ [Event.consoleError ("Error: " ++ message)], exitCode := some 1 }
      | (t, Except.ok pythonPath) =>
        { trace := t ++ (ensureAndDelegate w pythonPath args (childEnv w apiKey)).trace
          exitCode := (ensureAndDelegate w pythonPath args (childEnv w apiKey)).exitCode }

/-! ## Notions used to state the properties -/

/-- The value of the ASCII digit `c`. -/
def digitValue (c : Char) : Nat := c.toNat - 48

/-- The decimal value of a run of digits, most significant digit first. -/
def decimalValue (ds : List Char) : Nat :=
  Nat.ofDigits 10 (ds.reverse.map digitValue)

/-- The text contains a `digits.digits` pattern: somewhere a digit, a dot and a
digit follow one another. -/
def HasNumericPattern (s : List Char) : Prop :=
  ∃ pre a b post, s = pre ++ a :: '.' :: b :: post ∧ isDigit a = true ∧ isDigit b = true

/-- All characters of `ds` are ASCII digits and there is at least one. -/
def IsDigitRun (ds : List Char) : Prop :=
  ds ≠ [] ∧ ∀ c ∈ ds, isDigit c = true

/-- The text `rest` does not begin with a digit. -/
def NoLeadingDigit (rest : List Char) : Prop :=
  ∀ c, rest.head? = some c → isDigit c = false

/-- The value of a Number among the natural numbers with a top element:
`Infinity` is the top. -/
def JsNumber.toWithTop : JsNumber → WithTop Nat
  | JsNumber.finite n => WithTop.some n
  | JsNumber.infinity => ⊤

/-- The candidate `cmd` qualifies: the path lookup succeeds, and the version
query prints a non-empty text from which a version of at least `(3, 11)`, in
the lexicographic order, is parsed. -/
def Qualifying (w : World) (cmd : String) : Prop :=
  (∃ path, w.which cmd = some path) ∧
    ∃ out major minor, w.versionStdout cmd = some out ∧ out ≠ "" ∧
      parseVersion out = some (major, minor) ∧
      toLex ((WithTop.some 3 : WithTop Nat), (WithTop.some 11 : WithTop Nat))
        ≤ toLex (major.toWithTop, minor.toWithTop)

/-- The test made by one round of the loop of `findPython`, as a boolean. -/
def candidateOk (w : World) (cmd : String) : Bool :=
  (w.which cmd).isSome && versionOk (w.versionStdout cmd)

/-! ## Sample inputs -/

/-- A machine where only `python` is on the path, at version 3.12.1, with the
dependencies installed, an old secret in the environment and a server that
exits with code 7. -/
def sampleWorld : World where
  env := [("PATH", "/usr/bin"), ("ELEVENLABS_API_KEY", "OLD")]
  dirname := "/pkg/bin"
  pathJoin := fun parts => String.intercalate "/" parts
  which := fun cmd => if cmd = "python" then some "/usr/bin/python" else none
  versionStdout := fun _ => some "Python 3.12.1"
  importStatus := fun _ => some 0
  setupStatus := some 0
  child := some (ChildEvent.exit (some 7))

/-- The sample machine without a secret in the environment. -/
def bareWorld : World :=
  { sampleWorld with env := [("PATH", "/usr/bin")] }

/-- The sample machine with a server that is ended by a signal. -/
def signalWorld : World :=
  { sampleWorld with child := some (ChildEvent.exit none) }

/-- The sample machine with the dependencies missing and an installation that
fails with status 1. -/
def brokenWorld : World :=
  { sampleWorld with importStatus := fun _ => some 1, setupStatus := some 1 }

/-! ## Auxiliary facts about the primitives -/

theorem includes_eq_true_iff (xs : List String) (x : String) :
    includes xs x = true ↔ x ∈ xs := by
  induction xs with
  | nil => simp [includes]
  | cons y ys ih =>
    have : includes (y :: ys) x = ((y == x) || includes ys x) := by simp [includes]
    rw [this, Bool.or_eq_true, ih, List.mem_cons, beq_iff_eq]
    exact ⟨fun h => h.imp Eq.symm id, fun h => h.imp Eq.symm id⟩

theorem includes_eq_false_iff (xs : List String) (x : String) :
    includes xs x = false ↔ x ∉ xs := by
  rw [← includes_eq_true_iff]; simp

theorem indexOfFrom_none (x : String) :
    ∀ (xs : List String) (k : Nat), x ∉ xs → indexOfFrom x xs k = none
  | [], _, _ => rfl
  | y :: ys, k, h => by
    have hy : y ≠ x := fun e => h (by simp [e])
    have hys : x ∉ ys := fun e => h (by simp [e])
    simp [indexOfFrom, hy, indexOfFrom_none x ys (k + 1) hys]

theorem indexOfFrom_first (x : String) :
    ∀ (xs : List String) (k i : Nat), xs[i]? = some x →
      (∀ j, j < i → xs[j]? ≠ some x) → indexOfFrom x xs k = some (k + i)
  | [], _, i, h, _ => by simp at h
  | y :: ys, k, 0, h, _ => by
    have hy : y = x := by simpa using h
    simp [indexOfFrom, hy]
  | y :: ys, k, i + 1, h, hlt => by
    have hy : y ≠ x := by
      have := hlt 0 (Nat.succ_pos i)
      simpa using this
    have h1 : ys[i]? = some x := by simpa using h
    have h2 : ∀ j, j < i → ys[j]? ≠ some x := fun j hj => by
      have := hlt (j + 1) (Nat.succ_lt_succ hj)
      simpa using this
    have := indexOfFrom_first x ys (k + 1) i h1 h2
    simp [indexOfFrom, hy, this]
    omega

theorem indexOf_first (xs : List String) (x : String) (i : Nat)
    (h : xs[i]? = some x) (hlt : ∀ j, j < i → xs[j]? ≠ some x) :
    indexOf xs x = some i := by
  simpa [indexOf] using indexOfFrom_first x xs 0 i h hlt

theorem indexOf_none (xs : List String) (x : String) (h : x ∉ xs) :
    indexOf xs x = none :=
  indexOfFrom_none x xs 0 h

theorem Env.get_set_self (k v : String) : ∀ e : Env, (Env.set e k v).get k = some v
  | [] => by simp [Env.set, Env.get]
  | (k', v') :: rest => by
    by_cases hk : k' = k
    · simp [Env.set, Env.get, hk]
    · simp [Env.set, Env.get, hk, Env.get_set_self k v rest]

theorem Env.get_eq_none (k : String) :
    ∀ e : Env, (∀ v, (k, v) ∉ e) → Env.get e k = none
  | [], _ => rfl
  | (k', v') :: rest, h => by
    have hk : k' ≠ k := fun e => h v' (by simp [e])
    have hr : ∀ v, (k, v) ∉ rest := fun v hv => h v (by simp [hv])
    simp [Env.get, hk, Env.get_eq_none k rest hr]

/-! ## Auxiliary facts about the pattern matcher -/

theorem matchLiteral_append : ∀ (lit s : List Char), matchLiteral lit (lit ++ s) = some s
  | [], s => by cases s <;> rfl
  | l :: ls, s => by simp [matchLiteral, matchLiteral_append ls s]

theorem matchLiteral_some : ∀ (lit s r : List Char),
    matchLiteral lit s = some r → s = lit ++ r
  | [], s, r, h => by
    cases s <;> simp [matchLiteral] at h <;> simp [h]
  | l :: ls, [], r, h => by simp [matchLiteral] at h
  | l :: ls, c :: cs, r, h => by
    by_cases hl : l = c
    · simp [matchLiteral, hl] at h
      simp [hl, matchLiteral_some ls cs r h]
    · simp [matchLiteral, hl] at h

theorem takeDigits_append : ∀ (ds rest : List Char),
    (∀ c ∈ ds, isDigit c = true) → NoLeadingDigit rest →
      takeDigits (ds ++ rest) = (ds, rest)
  | [], [], _, _ => rfl
  | [], c :: cs, _, h => by
    have : isDigit c = false := h c rfl
    simp [takeDigits, this]
  | d :: ds, rest, hd, h => by
    have h1 : isDigit d = true := hd d (by simp)
    have h2 : ∀ c ∈ ds, isDigit c = true := fun c hc => hd c (by simp [hc])
    simp [takeDigits, h1, takeDigits_append ds rest h2 h]

theorem takeDigits_spec : ∀ (s : List Char),
    s = (takeDigits s).1 ++ (takeDigits s).2 ∧ ∀ c ∈ (takeDigits s).1, isDigit c = true
  | [] => by simp [takeDigits]
  | c :: cs => by
    by_cases hc : isDigit c = true
    · have ih := takeDigits_spec cs
      simp only [takeDigits, hc, if_true]
      refine ⟨by simpa using ih.1, ?_⟩
      intro x hx
      rcases List.mem_cons.mp hx with rfl | hx
      · exact hc
      · exact ih.2 x hx
    · simp [takeDigits, hc]

theorem foldl_digits_eq_decimalValue (ds : List Char) :
    ds.foldl (fun n c => 10 * n + (c.toNat - '0'.toNat)) 0 = decimalValue ds := by
  induction ds using List.reverseRecOn with
  | nil => simp [decimalValue]
  | append_singleton ds c ih =>
    rw [List.foldl_append, ih]
    simp [decimalValue, digitValue, Nat.ofDigits_cons]
    omega

theorem parseInt_eq_toNumber (ds : List Char) : parseInt ds = toNumber (decimalValue ds) := by
  rw [parseInt, foldl_digits_eq_decimalValue]

theorem toNumber_of_lt (n : Nat) (h : n < 2 ^ 53) : toNumber n = JsNumber.finite n := by
  unfold toNumber
  rw [if_pos h]

theorem floorLog2Fuel_spec : ∀ (fuel n : Nat), n ≤ fuel → 0 < n →
    2 ^ floorLog2Fuel fuel n ≤ n ∧ n < 2 ^ (floorLog2Fuel fuel n + 1)
  | 0, n, h, hp => by omega
  | fuel + 1, n, h, hp => by
    by_cases h2 : n < 2
    · have : n = 1 := by omega
      subst this
      simp [floorLog2Fuel]
    · have ih := floorLog2Fuel_spec fuel (n / 2) (by omega) (by omega)
      simp only [floorLog2Fuel, h2, if_false]
      constructor
      · have := ih.1
        rw [pow_succ]
        omega
      · have := ih.2
        rw [pow_succ]
        omega

/-- Rounding to the nearest double on sample integers: 2^53 + 1 is a tie and
goes to the even neighbour 2^53, 2^53 + 3 is a tie and goes up to 2^53 + 4,
and 2^53 + 2 is kept. -/
theorem toNumber_samples :
    toNumber 9007199254740993 = JsNumber.finite 9007199254740992 ∧
    toNumber 9007199254740995 = JsNumber.finite 9007199254740996 ∧
    toNumber 9007199254740994 = JsNumber.finite 9007199254740994 ∧
    toNumber 9007199254740991 = JsNumber.finite 9007199254740991 := by
  decide

set_option exponentiation.threshold 2000 in
set_option maxRecDepth 100000 in
/-- Overflow: 10^308 is still a finite double and 10^309 is `Infinity`. -/
theorem toNumber_overflow :
    toNumber (10 ^ 200 * 10 ^ 108) ≠ JsNumber.infinity ∧
    toNumber (10 ^ 200 * 10 ^ 109) = JsNumber.infinity := by
  decide

/-- The function `floorLog2` is the integer part of the binary logarithm. -/
theorem floorLog2_spec (n : Nat) (hp : 0 < n) :
    2 ^ floorLog2 n ≤ n ∧ n < 2 ^ (floorLog2 n + 1) :=
  floorLog2Fuel_spec n n (Nat.le_refl n) hp

theorem matchHere_python (X Y rest : List Char) (hX : IsDigitRun X) (hY : IsDigitRun Y)
    (hr : NoLeadingDigit rest) :
    matchHere ("Python ".toList ++ (X ++ '.' :: (Y ++ rest))) = some (X, Y) := by
  have hdot : NoLeadingDigit ('.' :: (Y ++ rest)) := by
    intro c hc
    have : c = '.' := by simpa using hc.symm
    subst this
    decide
  have h1 := takeDigits_append X ('.' :: (Y ++ rest)) hX.2 hdot
  have h2 := takeDigits_append Y rest hY.2 hr
  obtain ⟨x, xs, rfl⟩ := List.exists_cons_of_ne_nil hX.1
  obtain ⟨y, ys, rfl⟩ := List.exists_cons_of_ne_nil hY.1
  simp only [matchHere, matchLiteral_append, h1, h2]

theorem matchHere_some (s d1 d2 : List Char) (h : matchHere s = some (d1, d2)) :
    ∃ r, s = "Python ".toList ++ (d1 ++ '.' :: (d2 ++ r)) ∧ IsDigitRun d1 ∧ IsDigitRun d2 := by
  unfold matchHere at h
  split at h
  · cases h
  · rename_i r hlit
    have hs := matchLiteral_some _ _ _ hlit
    have hsp := takeDigits_spec r
    split at h
    · cases h
    · rename_i e1 r1 hne htd
      have hsp1 := takeDigits_spec r1
      split at h
      · cases h
      · rename_i e2 r2 hne2 htd2
        simp only [Option.some.injEq, Prod.mk.injEq] at h
        obtain ⟨rfl, rfl⟩ := h
        rw [htd] at hsp
        rw [htd2] at hsp1
        refine ⟨r2, ?_, ⟨?_, hsp.2⟩, ⟨?_, hsp1.2⟩⟩
        · rw [hs, hsp.1, hsp1.1]
        · intro e; exact hne e
        · intro e; exact hne2 e
    · cases h

theorem matchFrom_some : ∀ (s : List Char) (m : List Char × List Char),
    matchFrom s = some m → ∃ pre t, s = pre ++ t ∧ matchHere t = some m
  | [], m, h => by simp [matchFrom] at h
  | c :: cs, m, h => by
    unfold matchFrom at h
    split at h
    · rename_i m1 hm
      cases h
      exact ⟨[], c :: cs, rfl, hm⟩
    · obtain ⟨pre, t, hpre, ht⟩ := matchFrom_some cs m h
      exact ⟨c :: pre, t, by simp [hpre], ht⟩

theorem matchFrom_python (X Y rest : List Char) (hX : IsDigitRun X) (hY : IsDigitRun Y)
    (hr : NoLeadingDigit rest) :
    matchFrom ("Python ".toList ++ (X ++ '.' :: (Y ++ rest))) = some (X, Y) := by
  have h := matchHere_python X Y rest hX hY hr
  have hc : "Python ".toList ++ (X ++ '.' :: (Y ++ rest))
      = 'P' :: ("ython ".toList ++ (X ++ '.' :: (Y ++ rest))) := rfl
  rw [hc] at h ⊢
  simp only [matchFrom, h]

/-! ## Version qualification and version parsing -/

theorem qualifies_finite_iff (major minor : Nat) :
    qualifies (JsNumber.finite major) (JsNumber.finite minor) = true ↔
      toLex ((3 : Nat), (11 : Nat)) ≤ toLex (major, minor) := by
  rw [Prod.Lex.le_iff]
  simp only [qualifies, JsNumber.gt, JsNumber.ge, JsNumber.strictEq, Bool.or_eq_true,
    Bool.and_eq_true, decide_eq_true_eq, beq_iff_eq, JsNumber.finite.injEq, gt_iff_lt,
    ge_iff_le]
  constructor
  · rintro (h | ⟨h1, h2⟩)
    · exact Or.inl h
    · exact Or.inr ⟨h1.symm, h2⟩
  · rintro (h | ⟨h1, h2⟩)
    · exact Or.inl h
    · exact Or.inr ⟨h1.symm, h2⟩

theorem qualifies_eq_true_iff (major minor : JsNumber) :
    qualifies major minor = true ↔
      toLex ((WithTop.some 3 : WithTop Nat), (WithTop.some 11 : WithTop Nat))
        ≤ toLex (major.toWithTop, minor.toWithTop) := by
  rw [Prod.Lex.le_iff]
  cases major with
  | finite M =>
    cases minor with
    | finite m =>
      dsimp only [JsNumber.toWithTop]
      simp only [qualifies, JsNumber.gt, JsNumber.ge, JsNumber.strictEq,
        Bool.or_eq_true, Bool.and_eq_true, decide_eq_true_eq, beq_iff_eq, JsNumber.finite.injEq,
        WithTop.coe_lt_coe, WithTop.coe_le_coe, WithTop.coe_eq_coe, gt_iff_lt, ge_iff_le]
      constructor
      · rintro (h | ⟨h1, h2⟩)
        · exact Or.inl h
        · exact Or.inr ⟨h1.symm, h2⟩
      · rintro (h | ⟨h1, h2⟩)
        · exact Or.inl h
        · exact Or.inr ⟨h1.symm, h2⟩
    | infinity =>
      dsimp only [JsNumber.toWithTop]
      simp only [qualifies, JsNumber.gt, JsNumber.ge, JsNumber.strictEq,
        Bool.or_eq_true, Bool.and_eq_true, decide_eq_true_eq, beq_iff_eq, JsNumber.finite.injEq,
        WithTop.coe_lt_coe, WithTop.coe_le_coe, WithTop.coe_eq_coe, gt_iff_lt, le_top, and_true]
      constructor
      · rintro (h | h1)
        · exact Or.inl h
        · exact Or.inr h1.symm
      · rintro (h | h1)
        · exact Or.inl h
        · exact Or.inr h1.symm
  | infinity =>
    have h : (WithTop.some 3 : WithTop Nat) < ⊤ := WithTop.coe_lt_top 3
    cases minor <;>
      simp only [qualifies, JsNumber.gt, JsNumber.toWithTop, Bool.true_or, true_iff] <;>
      exact Or.inl h

/-- C7: for all non-negative integers `major` and `minor`, the qualification
test of `findPython` accepts `(major, minor)` exactly when
`(3, 11) ≤ (major, minor)` in the lexicographic order; so `(3, 11)`, `(3, 12)`
and `(4, 0)` qualify and `(3, 10)` and `(2, 9)` do not.  The same equivalence
holds when a component is `Infinity`, taken as the top element. -/
theorem qualifies_iff_lex_ge :
    (∀ major minor : Nat,
      qualifies (JsNumber.finite major) (JsNumber.finite minor) = true ↔
        toLex ((3 : Nat), (11 : Nat)) ≤ toLex (major, minor)) ∧
    (∀ major minor : JsNumber,
      qualifies major minor = true ↔
        toLex ((WithTop.some 3 : WithTop Nat), (WithTop.some 11 : WithTop Nat))
          ≤ toLex (major.toWithTop, minor.toWithTop)) ∧
    qualifies (JsNumber.finite 3) (JsNumber.finite 11) = true ∧
    qualifies (JsNumber.finite 3) (JsNumber.finite 12) = true ∧
    qualifies (JsNumber.finite 4) (JsNumber.finite 0) = true ∧
    qualifies (JsNumber.finite 3) (JsNumber.finite 10) = false ∧
    qualifies (JsNumber.finite 2) (JsNumber.finite 9) = false := by
  exact ⟨qualifies_finite_iff, qualifies_eq_true_iff, by decide, by decide, by decide,
    by decide, by decide⟩

/-- C8 as stated fails twice.  The text `3.11` has the form `X.Y` with `X` and
`Y` runs of digits, and the parser yields no version for it, because the
pattern asks for the literal `Python ` in front of the digits.  And from
`Python 3.9007199254740993` the parser extracts the minor number
9007199254740992, the nearest double, not the integer that `Y` denotes: so the
claim fails even for outputs that begin with `Python `. -/
theorem parseVersion_bare_version_rejected :
    parseVersion "3.11" = none ∧
    ¬ (∀ X Y rest : List Char, IsDigitRun X → IsDigitRun Y →
        parseVersion (String.mk (X ++ '.' :: (Y ++ rest)))
          = some (JsNumber.finite (decimalValue X), JsNumber.finite (decimalValue Y))) ∧
    parseVersion "Python 3.9007199254740993"
      = some (JsNumber.finite 3, JsNumber.finite 9007199254740992) ∧
    ¬ (∀ X Y rest : List Char, IsDigitRun X → IsDigitRun Y → NoLeadingDigit rest →
        parseVersion (String.mk ("Python ".toList ++ (X ++ '.' :: (Y ++ rest))))
          = some (JsNumber.finite (decimalValue X), JsNumber.finite (decimalValue Y))) := by
  have h0 : parseVersion "3.11" = none := by decide
  have h5 : parseVersion "Python 3.9007199254740993"
      = some (JsNumber.finite 3, JsNumber.finite 9007199254740992) := by decide
  refine ⟨h0, fun h => ?_, h5, fun h => ?_⟩
  · have h1 : IsDigitRun ['3'] := ⟨by simp, by decide⟩
    have h2 : IsDigitRun ['1', '1'] := ⟨by simp, by decide⟩
    have h3 := h ['3'] ['1', '1'] [] h1 h2
    have h4 : String.mk (['3'] ++ '.' :: (['1', '1'] ++ [])) = "3.11" := by decide
    rw [h4, h0] at h3
    cases h3
  · have h1 : IsDigitRun ['3'] := ⟨by simp, by decide⟩
    have h2 : IsDigitRun "9007199254740993".toList := ⟨by decide, by decide⟩
    have h3 : NoLeadingDigit [] := by
      intro c hc
      cases hc
    have h6 := h ['3'] "9007199254740993".toList [] h1 h2 h3
    have h4 : String.mk ("Python ".toList ++ (['3'] ++ '.' :: ("9007199254740993".toList ++ [])))
        = "Python 3.9007199254740993" := by decide
    have h7 : decimalValue "9007199254740993".toList = 9007199254740993 := by
      rw [← foldl_digits_eq_decimalValue]
      rfl
    rw [h4, h5, h7] at h6
    simp only [Option.some.injEq, Prod.mk.injEq, JsNumber.finite.injEq] at h6
    omega

/-- C8, amended: for every output `Python X.Y` followed by `rest`, where `X` and
`Y` are non-empty runs of digits that denote integers below 2^53 and `rest`
does not begin with a digit, the parser extracts exactly the integers that `X`
and `Y` denote; and every text without a `digits.digits` pattern is
rejected. -/
theorem parseVersion_python_output (X Y rest : List Char) (hX : IsDigitRun X)
    (hY : IsDigitRun Y) (hr : NoLeadingDigit rest)
    (hXs : decimalValue X < 2 ^ 53) (hYs : decimalValue Y < 2 ^ 53) :
    parseVersion (String.mk ("Python ".toList ++ (X ++ '.' :: (Y ++ rest))))
        = some (JsNumber.finite (decimalValue X), JsNumber.finite (decimalValue Y)) ∧
      ∀ s : String, ¬ HasNumericPattern s.toList → parseVersion s = none := by
  constructor
  · have h := matchFrom_python X Y rest hX hY hr
    have hl : (String.mk ("Python ".toList ++ (X ++ '.' :: (Y ++ rest)))).toList
        = "Python ".toList ++ (X ++ '.' :: (Y ++ rest)) := rfl
    unfold parseVersion
    rw [hl, h]
    simp only [parseInt_eq_toNumber, toNumber_of_lt _ hXs, toNumber_of_lt _ hYs]
  · intro s hs
    cases hm : matchFrom s.toList with
    | none => simp only [parseVersion, hm]
    | some m =>
      exfalso
      apply hs
      obtain ⟨d1, d2⟩ := m
      obtain ⟨pre, t, hpre, ht⟩ := matchFrom_some _ _ hm
      obtain ⟨r, hr', h1, h2⟩ := matchHere_some _ _ _ ht
      obtain ⟨b, d2', rfl⟩ := List.exists_cons_of_ne_nil h2.1
      obtain ⟨d1', a, rfl⟩ := (List.eq_nil_or_concat d1).resolve_left h1.1
      refine ⟨pre ++ "Python ".toList ++ d1', a, b, d2' ++ r, ?_, h1.2 a (by simp),
        h2.2 b (by simp)⟩
      rw [hpre, hr']
      simp

/-- Witness of `parseVersion_python_output` on the output `Python 3.11.4`. -/
theorem parseVersion_python_output_witness :
    IsDigitRun ['3'] ∧ IsDigitRun ['1', '1'] ∧ NoLeadingDigit ['.', '4'] ∧
    decimalValue ['3'] < 2 ^ 53 ∧ decimalValue ['1', '1'] < 2 ^ 53 ∧
    (parseVersion (String.mk ("Python ".toList ++ (['3'] ++ '.' :: (['1', '1'] ++ ['.', '4']))))
        = some (JsNumber.finite (decimalValue ['3']), JsNumber.finite (decimalValue ['1', '1'])) ∧
      ∀ s : String, ¬ HasNumericPattern s.toList → parseVersion s = none) :=
  have h1 : IsDigitRun ['3'] := ⟨by simp, by decide⟩
  have h2 : IsDigitRun ['1', '1'] := ⟨by simp, by decide⟩
  have h3 : NoLeadingDigit ['.', '4'] := by
    intro c hc
    have : c = '.' := by simpa using hc.symm
    subst this
    decide
  have h4 : decimalValue ['3'] < 2 ^ 53 := by
    rw [← foldl_digits_eq_decimalValue]
    decide
  have h5 : decimalValue ['1', '1'] < 2 ^ 53 := by
    rw [← foldl_digits_eq_decimalValue]
    decide
  ⟨h1, h2, h3, h4, h5,
   parseVersion_python_output ['3'] ['1', '1'] ['.', '4'] h1 h2 h3 h4 h5⟩

/-! ## Interpreter resolution -/

theorem versionOk_eq_true_iff (stdout : Option String) :
    versionOk stdout = true ↔
      ∃ out major minor, stdout = some out ∧ out ≠ "" ∧
        parseVersion out = some (major, minor) ∧
        toLex ((WithTop.some 3 : WithTop Nat), (WithTop.some 11 : WithTop Nat))
          ≤ toLex (major.toWithTop, minor.toWithTop) := by
  cases stdout with
  | none => simp [versionOk]
  | some out =>
    by_cases ho : out = ""
    · simp [versionOk, truthy, ho]
    · cases hp : parseVersion out with
      | none => simp [versionOk, truthy, ho, hp]
      | some v =>
        obtain ⟨major, minor⟩ := v
        have hl : versionOk (some out) = qualifies major minor := by
          simp [versionOk, truthy, ho, hp]
        rw [hl, qualifies_eq_true_iff]
        constructor
        · intro h
          exact ⟨out, major, minor, rfl, ho, hp, h⟩
        · rintro ⟨o, M, m, ho', _, hp', h⟩
          cases ho'
          rw [hp] at hp'
          cases hp'
          exact h

theorem candidateOk_eq_true_iff (w : World) (cmd : String) :
    candidateOk w cmd = true ↔ Qualifying w cmd := by
  simp only [candidateOk, Qualifying, Bool.and_eq_true, versionOk_eq_true_iff,
    Option.isSome_iff_exists]

theorem findPythonLoop_result (w : World) :
    ∀ cands : List String,
      (findPythonLoop w cands).2 = (cands.find? (candidateOk w)).bind w.which
  | [] => rfl
  | cmd :: rest => by
    have ih := findPythonLoop_result w rest
    cases hw : w.which cmd with
    | none => simp [findPythonLoop, hw, candidateOk, ih]
    | some path =>
      by_cases hv : versionOk (w.versionStdout cmd) = true
      · simp [findPythonLoop, hw, candidateOk, hv]
      · simp [findPythonLoop, hw, candidateOk, hv, ih]

theorem findPythonLoop_trace (w : World) :
    ∀ (cands : List String) (e : Event), e ∈ (findPythonLoop w cands).1 →
      ∃ cmd, cmd ∈ cands ∧ (e = Event.whichLookup cmd ∨ e = Event.spawnSync cmd ["--version"])
  | [], e, h => by simp [findPythonLoop] at h
  | cmd :: rest, e, h => by
    have ih := findPythonLoop_trace w rest e
    cases hw : w.which cmd with
    | none =>
      simp only [findPythonLoop, hw, List.mem_cons] at h
      rcases h with rfl | h
      · exact ⟨cmd, by simp, Or.inl rfl⟩
      · obtain ⟨c, hc, hce⟩ := ih h
        exact ⟨c, by simp [hc], hce⟩
    | some path =>
      by_cases hv : versionOk (w.versionStdout cmd) = true
      · simp only [findPythonLoop, hw, hv, if_true, List.mem_cons, List.mem_singleton] at h
        rcases h with rfl | rfl | h
        · exact ⟨cmd, by simp, Or.inl rfl⟩
        · exact ⟨cmd, by simp, Or.inr rfl⟩
        · simp at h
      · have hv' : versionOk (w.versionStdout cmd) = false := by simpa using hv
        simp only [findPythonLoop, hw, hv', Bool.false_eq_true, if_false, List.mem_cons] at h
        rcases h with rfl | rfl | h
        · exact ⟨cmd, by simp, Or.inl rfl⟩
        · exact ⟨cmd, by simp, Or.inr rfl⟩
        · obtain ⟨c, hc, hce⟩ := ih h
          exact ⟨c, by simp [hc], hce⟩

theorem findPython_trace (w : World) (e : Event) (h : e ∈ (findPython w).1) :
    ∃ cmd, cmd ∈ pythonCommands ∧
      (e = Event.whichLookup cmd ∨ e = Event.spawnSync cmd ["--version"]) := by
  apply findPythonLoop_trace w pythonCommands e
  unfold findPython at h
  split at h <;> rename_i heq <;> simpa [heq] using h

theorem findPython_result (w : World) :
    (findPython w).2 =
      match (pythonCommands.find? (candidateOk w)).bind w.which with
      | some pythonPath => Except.ok pythonPath
      | none => Except.error notFoundMessage := by
  rw [← findPythonLoop_result]
  unfold findPython
  split <;> rename_i heq <;> simp [heq]

theorem findPython_trace_head (w : World) :
    ∃ rest, (findPython w).1 = Event.whichLookup "python3" :: rest := by
  have h : ∃ rest, (findPythonLoop w pythonCommands).1 = Event.whichLookup "python3" :: rest := by
    cases hw : w.which "python3" with
    | none => simp [pythonCommands, findPythonLoop, hw]
    | some path =>
      by_cases hv : versionOk (w.versionStdout "python3") = true
      · simp [pythonCommands, findPythonLoop, hw, hv]
      · simp [pythonCommands, findPythonLoop, hw, hv]
  unfold findPython
  split <;> rename_i heq <;> simpa [heq] using h

theorem findPython_fst (w : World) : (findPython w).1 = (findPythonLoop w pythonCommands).1 := by
  unfold findPython
  split <;> rename_i heq <;> simp [heq]

theorem findPython_probes (w : World) :
    (candidateOk w "python3" = true →
      (findPython w).1 = [Event.whichLookup "python3", Event.spawnSync "python3" ["--version"]]) ∧
    (candidateOk w "python3" = false → Event.whichLookup "python" ∈ (findPython w).1) := by
  rw [findPython_fst]
  cases hw : w.which "python3" with
  | none =>
    refine ⟨fun h => ?_, fun _ => ?_⟩
    · simp [candidateOk, hw] at h
    · cases hw2 : w.which "python" with
      | none => simp [pythonCommands, findPythonLoop, hw, hw2]
      | some p2 =>
        by_cases hv2 : versionOk (w.versionStdout "python") = true
        · simp [pythonCommands, findPythonLoop, hw, hw2, hv2]
        · simp [pythonCommands, findPythonLoop, hw, hw2, hv2]
  | some p3 =>
    by_cases hv : versionOk (w.versionStdout "python3") = true
    · refine ⟨fun _ => ?_, fun h => ?_⟩
      · simp [pythonCommands, findPythonLoop, hw, hv]
      · simp [candidateOk, hw, hv] at h
    · refine ⟨fun h => ?_, fun _ => ?_⟩
      · simp [candidateOk, hw, hv] at h
      · cases hw2 : w.which "python" with
        | none => simp [pythonCommands, findPythonLoop, hw, hv, hw2]
        | some p2 =>
          by_cases hv2 : versionOk (w.versionStdout "python") = true
          · simp [pythonCommands, findPythonLoop, hw, hv, hw2, hv2]
          · simp [pythonCommands, findPythonLoop, hw, hv, hw2, hv2]

/-- C6: `findPython` returns the looked-up path of the first of `python3`,
`python` that qualifies (lookup succeeds, output non-empty, version parsed and
at least 3.11); a candidate that does not qualify is passed over without any
message and `python` is probed next, a later candidate is returned only when
the earlier one does not qualify, and `python` is not even probed when
`python3` qualifies; the error naming `Python 3.11+` is thrown exactly when
neither candidate qualifies. -/
theorem findPython_first_qualifying (w : World) :
    (∀ p, (findPython w).2 = Except.ok p ↔
        (Qualifying w "python3" ∧ w.which "python3" = some p) ∨
        (¬ Qualifying w "python3" ∧ Qualifying w "python" ∧ w.which "python" = some p)) ∧
    (∀ msg, (findPython w).2 = Except.error msg ↔
        (¬ Qualifying w "python3" ∧ ¬ Qualifying w "python" ∧ msg = notFoundMessage)) ∧
    notFoundMessage =
      "Python 3.11+" ++ " is required but not found. Please install Python 3.11 or higher." ∧
    (∀ e ∈ (findPython w).1, ∀ line,
      e ≠ Event.consoleLog line ∧ e ≠ Event.consoleError line) ∧
    (Qualifying w "python3" →
      (findPython w).1 =
        [Event.whichLookup "python3", Event.spawnSync "python3" ["--version"]]) ∧
    (¬ Qualifying w "python3" → Event.whichLookup "python" ∈ (findPython w).1) := by
  have hres := findPython_result w
  have key : ∀ cmd, candidateOk w cmd = true → ∃ path, w.which cmd = some path :=
    fun cmd h => ((candidateOk_eq_true_iff w cmd).mp h).1
  refine ⟨?_, ?_, by decide, ?_,
    fun q => (findPython_probes w).1 ((candidateOk_eq_true_iff w _).mpr q),
    fun q => (findPython_probes w).2 (by
      cases hc : candidateOk w "python3" with
      | false => rfl
      | true => exact absurd ((candidateOk_eq_true_iff w _).mp hc) q)⟩
  · intro p
    by_cases h3 : candidateOk w "python3" = true
    · have q3 := (candidateOk_eq_true_iff w "python3").mp h3
      obtain ⟨path, hpath⟩ := key _ h3
      have : (findPython w).2 = Except.ok path := by
        rw [hres]; simp [pythonCommands, List.find?, h3, hpath]
      rw [this, hpath]
      simp [q3]
    · have q3 : ¬ Qualifying w "python3" := fun q => h3 ((candidateOk_eq_true_iff w _).mpr q)
      have h3' : candidateOk w "python3" = false := by simpa using h3
      by_cases h2 : candidateOk w "python" = true
      · have q2 := (candidateOk_eq_true_iff w "python").mp h2
        obtain ⟨path, hpath⟩ := key _ h2
        have : (findPython w).2 = Except.ok path := by
          rw [hres]; simp [pythonCommands, List.find?, h3', h2, hpath]
        rw [this, hpath]
        simp [q3, q2]
      · have q2 : ¬ Qualifying w "python" := fun q => h2 ((candidateOk_eq_true_iff w _).mpr q)
        have h2' : candidateOk w "python" = false := by simpa using h2
        have : (findPython w).2 = Except.error notFoundMessage := by
          rw [hres]; simp [pythonCommands, List.find?, h3', h2']
        rw [this]
        simp [q3, q2]
  · intro msg
    by_cases h3 : candidateOk w "python3" = true
    · have q3 := (candidateOk_eq_true_iff w "python3").mp h3
      obtain ⟨path, hpath⟩ := key _ h3
      have : (findPython w).2 = Except.ok path := by
        rw [hres]; simp [pythonCommands, List.find?, h3, hpath]
      rw [this]
      simp [q3]
    · have q3 : ¬ Qualifying w "python3" := fun q => h3 ((candidateOk_eq_true_iff w _).mpr q)
      have h3' : candidateOk w "python3" = false := by simpa using h3
      by_cases h2 : candidateOk w "python" = true
      · have q2 := (candidateOk_eq_true_iff w "python").mp h2
        obtain ⟨path, hpath⟩ := key _ h2
        have : (findPython w).2 = Except.ok path := by
          rw [hres]; simp [pythonCommands, List.find?, h3', h2, hpath]
        rw [this]
        simp [q2]
      · have q2 : ¬ Qualifying w "python" := fun q => h2 ((candidateOk_eq_true_iff w _).mpr q)
        have h2' : candidateOk w "python" = false := by simpa using h2
        have : (findPython w).2 = Except.error notFoundMessage := by
          rw [hres]; simp [pythonCommands, List.find?, h3', h2']
        rw [this]
        simp [q3, q2, eq_comm]
  · intro e he line
    obtain ⟨cmd, _, hc | hc⟩ := findPython_trace w e he <;> subst hc <;> simp

/-! ## The structure of a run of `main` -/

theorem main_eq (w : World) (argv : List String) :
    main w argv =
      if credentialMissing (parseArgs w argv).1 (parseArgs w argv).2 = true then
        { trace := credentialErrors, exitCode := some 1 }
      else
        match (findPython w).2 with
        | Except.error message =>
          { trace := (findPython w).1 ++ [Event.consoleError ("Error: " ++ message)]
            exitCode := some 1 }
        | Except.ok pythonPath =>
          { trace := (findPython w).1 ++
              (ensureAndDelegate w pythonPath (parseArgs w argv).2
                (childEnv w (parseArgs w argv).1)).trace
            exitCode :=
              (ensureAndDelegate w pythonPath (parseArgs w argv).2
                (childEnv w (parseArgs w argv).1)).exitCode } := by
  unfold main
  rcases parseArgs w argv with ⟨apiKey, args⟩
  rcases findPython w with ⟨t, r⟩
  cases r <;> rfl

theorem main_missing (w : World) (argv : List String)
    (h : credentialMissing (parseArgs w argv).1 (parseArgs w argv).2 = true) :
    main w argv = { trace := credentialErrors, exitCode := some 1 } := by
  rw [main_eq, if_pos h]

theorem main_not_found (w : World) (argv : List String) (message : String)
    (h : credentialMissing (parseArgs w argv).1 (parseArgs w argv).2 = false)
    (hf : (findPython w).2 = Except.error message) :
    main w argv =
      { trace := (findPython w).1 ++ [Event.consoleError ("Error: " ++ message)]
        exitCode := some 1 } := by
  rw [main_eq, if_neg (by simp [h]), hf]

theorem main_found (w : World) (argv : List String) (pythonPath : String)
    (h : credentialMissing (parseArgs w argv).1 (parseArgs w argv).2 = false)
    (hf : (findPython w).2 = Except.ok pythonPath) :
    main w argv =
      { trace := (findPython w).1 ++
          (ensureAndDelegate w pythonPath (parseArgs w argv).2
            (childEnv w (parseArgs w argv).1)).trace
        exitCode :=
          (ensureAndDelegate w pythonPath (parseArgs w argv).2
            (childEnv w (parseArgs w argv).1)).exitCode } := by
  rw [main_eq, if_neg (by simp [h]), hf]

theorem ensure_install_failed (w : World) (pythonPath : String) (args : List String)
    (env : Env) (h1 : w.importStatus pythonPath ≠ some 0) (h2 : w.setupStatus ≠ some 0) :
    ensureAndDelegate w pythonPath args env =
      { trace :=
          [importCheck pythonPath,
           Event.consoleLog "Python dependencies not found. Installing...",
           setupRun w,
           Event.consoleError fallbackMessage]
        exitCode := some 1 } := by
  simp [ensureAndDelegate, h1, h2]

theorem ensure_installed (w : World) (pythonPath : String) (args : List String)
    (env : Env) (h1 : w.importStatus pythonPath ≠ some 0) (h2 : w.setupStatus = some 0) :
    ensureAndDelegate w pythonPath args env =
      { trace :=
          [importCheck pythonPath,
           Event.consoleLog "Python dependencies not found. Installing...",
           setupRun w] ++ (delegate w pythonPath args env).trace
        exitCode := (delegate w pythonPath args env).exitCode } := by
  simp [ensureAndDelegate, h1, h2]

theorem ensure_present (w : World) (pythonPath : String) (args : List String)
    (env : Env) (h1 : w.importStatus pythonPath = some 0) :
    ensureAndDelegate w pythonPath args env =
      { trace := importCheck pythonPath :: (delegate w pythonPath args env).trace
        exitCode := (delegate w pythonPath args env).exitCode } := by
  simp [ensureAndDelegate, h1]

theorem onChild_no_spawn (c : Option ChildEvent) (cmd : String) (a : List String)
    (d : String) (e : Env) : Event.spawnChild cmd a d e ∉ (onChild c).1 := by
  rcases c with _ | ⟨m⟩ | ⟨code⟩ <;> simp [onChild]

theorem spawnChild_mem_delegate (w : World) (pythonPath : String) (args : List String)
    (env : Env) (cmd : String) (a : List String) (d : String) (e : Env) :
    Event.spawnChild cmd a d e ∈ (delegate w pythonPath args env).trace ↔
      cmd = pythonPath ∧ a = ["-m", "elevenlabs_mcp"] ++ args ∧
        d = w.pathJoin [w.dirname, ".."] ∧ e = env := by
  have := onChild_no_spawn w.child cmd a d e
  simp [delegate, this]

theorem spawnChild_mem_ensure (w : World) (pythonPath : String) (args : List String)
    (env : Env) (cmd : String) (a : List String) (d : String) (e : Env) :
    Event.spawnChild cmd a d e ∈ (ensureAndDelegate w pythonPath args env).trace ↔
      (w.importStatus pythonPath = some 0 ∨ w.setupStatus = some 0) ∧
        cmd = pythonPath ∧ a = ["-m", "elevenlabs_mcp"] ++ args ∧
        d = w.pathJoin [w.dirname, ".."] ∧ e = env := by
  by_cases h1 : w.importStatus pythonPath = some 0
  · rw [ensure_present w pythonPath args env h1]
    simp [importCheck, spawnChild_mem_delegate, h1]
  · by_cases h2 : w.setupStatus = some 0
    · rw [ensure_installed w pythonPath args env h1 h2]
      simp [importCheck, setupRun, spawnChild_mem_delegate, h2]
    · rw [ensure_install_failed w pythonPath args env h1 h2]
      simp [importCheck, setupRun, h1, h2]

theorem spawnChild_not_mem_findPython (w : World) (cmd : String) (a : List String)
    (d : String) (e : Env) : Event.spawnChild cmd a d e ∉ (findPython w).1 := by
  intro h
  obtain ⟨c, _, hc | hc⟩ := findPython_trace w _ h <;> cases hc

/-- The delegated process is launched exactly when the credential check passes,
an interpreter is found and the dependencies are, or become, available. -/
theorem spawnChild_mem_main (w : World) (argv : List String) (cmd : String)
    (a : List String) (d : String) (e : Env) :
    Event.spawnChild cmd a d e ∈ (main w argv).trace ↔
      credentialMissing (parseArgs w argv).1 (parseArgs w argv).2 = false ∧
      (findPython w).2 = Except.ok cmd ∧
      (w.importStatus cmd = some 0 ∨ w.setupStatus = some 0) ∧
      a = ["-m", "elevenlabs_mcp"] ++ (parseArgs w argv).2 ∧
      d = w.pathJoin [w.dirname, ".."] ∧ e = childEnv w (parseArgs w argv).1 := by
  by_cases hc : credentialMissing (parseArgs w argv).1 (parseArgs w argv).2 = true
  · rw [main_missing w argv hc]
    simp [credentialErrors, hc]
  · have hc' : credentialMissing (parseArgs w argv).1 (parseArgs w argv).2 = false := by
      simpa using hc
    cases hf : (findPython w).2 with
    | error message =>
      rw [main_not_found w argv message hc' hf]
      simp [spawnChild_not_mem_findPython]
    | ok pythonPath =>
      rw [main_found w argv pythonPath hc' hf]
      simp only [List.mem_append, spawnChild_not_mem_findPython, false_or,
        spawnChild_mem_ensure, hc', true_and, Except.ok.injEq]
      constructor
      · rintro ⟨h, rfl, rfl, rfl, rfl⟩
        exact ⟨rfl, h, rfl, rfl, rfl⟩
      · rintro ⟨rfl, h, rfl, rfl, rfl⟩
        exact ⟨h, rfl, rfl, rfl, rfl⟩

/-- Once the delegated process is launched, the exit code of the run is the one
computed by the handlers of the child. -/
theorem exitCode_of_spawned (w : World) (argv : List String) (cmd : String)
    (a : List String) (d : String) (e : Env)
    (h : Event.spawnChild cmd a d e ∈ (main w argv).trace) :
    (main w argv).exitCode = (onChild w.child).2 := by
  obtain ⟨hc, hf, hdeps, -, -, -⟩ := (spawnChild_mem_main w argv cmd a d e).mp h
  rw [main_found w argv cmd hc hf]
  rcases hdeps with h1 | h2
  · rw [ensure_present w cmd _ _ h1]
    rfl
  · by_cases h1 : w.importStatus cmd = some 0
    · rw [ensure_present w cmd _ _ h1]
      rfl
    · rw [ensure_installed w cmd _ _ h1 h2]
      rfl

/-! ## The handling of `--api-key` -/

theorem parseArgs_no_flag (w : World) (node script : String) (args : List String)
    (h : "--api-key" ∉ args) :
    parseArgs w (node :: script :: args) = (w.env.get "ELEVENLABS_API_KEY", args) := by
  simp [parseArgs, indexOf_none args _ h]

theorem parseArgs_flag (w : World) (node script : String) (args : List String)
    (i : Nat) (v : String) (hi : args[i]? = some "--api-key")
    (hfirst : ∀ j, j < i → args[j]? ≠ some "--api-key")
    (hv : args[i + 1]? = some v) (hne : v ≠ "") :
    parseArgs w (node :: script :: args) = (some v, splice args i 2) := by
  simp [parseArgs, indexOf_first args _ i hi hfirst, hv, truthy, hne]

theorem parseArgs_cases (w : World) (node script : String) (args : List String) :
    (parseArgs w (node :: script :: args)).2 = args ∨
      truthy (parseArgs w (node :: script :: args)).1 = true := by
  simp only [parseArgs, List.drop_succ_cons, List.drop_zero]
  cases indexOf args "--api-key" with
  | none => exact Or.inl rfl
  | some i =>
    by_cases ht : truthy (args.get? (i + 1)) = true
    · right
      simp only [ht, if_true]
    · left
      simp only [ht]
      rfl

theorem splice_two_eq_eraseIdx : ∀ (xs : List String) (i : Nat),
    splice xs i 2 = (xs.eraseIdx (i + 1)).eraseIdx i
  | [], i => by simp [splice]
  | [x], 0 => by simp [splice]
  | x :: y :: ys, 0 => by simp [splice]
  | x :: xs, i + 1 => by
    have ih := splice_two_eq_eraseIdx xs i
    simp only [splice] at ih
    have hd : List.drop (i + 1 + 2) (x :: xs) = List.drop (i + 2) xs := by
      rw [show i + 1 + 2 = (i + 2) + 1 by omega, List.drop_succ_cons]
    simp only [splice, List.take_succ_cons, List.cons_append, hd, ih, List.eraseIdx_cons_succ]

/-- C1: when the first `--api-key` of the arguments stands at index `i` and is
followed by a non-empty token `v`, every launch of the delegate forwards
`-m elevenlabs_mcp` followed by the arguments with the tokens at `i` and `i + 1`
removed, with `ELEVENLABS_API_KEY = v` in the environment of the child,
whatever the inherited environment holds; and the delegate is launched with
these as soon as an interpreter is found and the dependencies are available. -/
theorem main_forwards_stripped_arguments (w : World) (node script : String)
    (args : List String) (i : Nat) (v : String)
    (hi : args[i]? = some "--api-key")
    (hfirst : ∀ j, j < i → args[j]? ≠ some "--api-key")
    (hv : args[i + 1]? = some v) (hne : v ≠ "") :
    (∀ cmd a d e, Event.spawnChild cmd a d e ∈ (main w (node :: script :: args)).trace →
        a = ["-m", "elevenlabs_mcp"] ++ (args.eraseIdx (i + 1)).eraseIdx i ∧
        e.get "ELEVENLABS_API_KEY" = some v) ∧
    (∀ pythonPath, (findPython w).2 = Except.ok pythonPath →
        (w.importStatus pythonPath = some 0 ∨ w.setupStatus = some 0) →
        ∃ e, e.get "ELEVENLABS_API_KEY" = some v ∧
          Event.spawnChild pythonPath
            (["-m", "elevenlabs_mcp"] ++ (args.eraseIdx (i + 1)).eraseIdx i)
            (w.pathJoin [w.dirname, ".."]) e ∈ (main w (node :: script :: args)).trace) := by
  have hp := parseArgs_flag w node script args i v hi hfirst hv hne
  have henv : (childEnv w (some v)).get "ELEVENLABS_API_KEY" = some v := by
    simp [childEnv, truthy, hne, Env.get_set_self]
  have hcred : credentialMissing (some v) (splice args i 2) = false := by
    simp [credentialMissing, truthy, hne]
  constructor
  · intro cmd a d e h
    obtain ⟨-, -, -, ha, -, he⟩ := (spawnChild_mem_main w _ cmd a d e).mp h
    rw [hp] at ha he
    exact ⟨by rw [ha, splice_two_eq_eraseIdx], by rw [he]; exact henv⟩
  · intro pythonPath hf hdeps
    refine ⟨childEnv w (some v), henv, ?_⟩
    rw [spawnChild_mem_main, hp]
    exact ⟨hcred, hf, hdeps, by rw [splice_two_eq_eraseIdx], rfl, rfl⟩

/-- Witness of `main_forwards_stripped_arguments`: the arguments
`--api-key SECRET --foo` forward `--foo` with the secret `SECRET`, although the
inherited environment holds another value. -/
theorem main_forwards_stripped_arguments_witness :
    Env.get sampleWorld.env "ELEVENLABS_API_KEY" = some "OLD" ∧
    (∀ cmd a d e, Event.spawnChild cmd a d e ∈
        (main sampleWorld ["node", "launcher.js", "--api-key", "SECRET", "--foo"]).trace →
        a = ["-m", "elevenlabs_mcp", "--foo"] ∧
        e.get "ELEVENLABS_API_KEY" = some "SECRET") ∧
    (∀ pythonPath, (findPython sampleWorld).2 = Except.ok pythonPath →
        (sampleWorld.importStatus pythonPath = some 0 ∨ sampleWorld.setupStatus = some 0) →
        ∃ e, e.get "ELEVENLABS_API_KEY" = some "SECRET" ∧
          Event.spawnChild pythonPath ["-m", "elevenlabs_mcp", "--foo"]
            (sampleWorld.pathJoin [sampleWorld.dirname, ".."]) e ∈
            (main sampleWorld ["node", "launcher.js", "--api-key", "SECRET", "--foo"]).trace) :=
  ⟨by decide,
   main_forwards_stripped_arguments sampleWorld "node" "launcher.js"
     ["--api-key", "SECRET", "--foo"] 0 "SECRET" (by decide) (by intro j hj; omega)
     (by decide) (by decide)⟩

/-! ## The credential check -/

/-- C2: when `ELEVENLABS_API_KEY` is not set in the environment and none of
`--api-key`, `--help`, `-h` occurs in the arguments, `main` exits with code 1
after printing the three remediation lines only: no path lookup and no
sub-process is attempted. -/
theorem main_missing_credential (w : World) (node script : String) (args : List String)
    (henv : ∀ v, ("ELEVENLABS_API_KEY", v) ∉ w.env)
    (hflag : "--api-key" ∉ args) (hhelp : "--help" ∉ args) (hh : "-h" ∉ args) :
    (main w (node :: script :: args)).exitCode = some 1 ∧
    (main w (node :: script :: args)).trace = credentialErrors ∧
    ∀ e ∈ (main w (node :: script :: args)).trace, ∀ cmd,
      e ≠ Event.whichLookup cmd ∧ ∀ a, e ≠ Event.spawnSync cmd a := by
  have hp := parseArgs_no_flag w node script args hflag
  have hmiss : credentialMissing (parseArgs w (node :: script :: args)).1
      (parseArgs w (node :: script :: args)).2 = true := by
    rw [hp]
    simp [credentialMissing, Env.get_eq_none _ _ henv, truthy,
      (includes_eq_false_iff args "--help").mpr hhelp,
      (includes_eq_false_iff args "-h").mpr hh]
  rw [main_missing w _ hmiss]
  refine ⟨rfl, rfl, ?_⟩
  intro e he cmd
  simp only [credentialErrors, List.mem_cons, List.mem_singleton, List.not_mem_nil,
    or_false] at he
  rcases he with rfl | rfl | rfl <;> simp

/-- Witness of `main_missing_credential`: no secret anywhere and the single
argument `--foo`. -/
theorem main_missing_credential_witness :
    (∀ v, ("ELEVENLABS_API_KEY", v) ∉ bareWorld.env) ∧
    "--api-key" ∉ ["--foo"] ∧ "--help" ∉ ["--foo"] ∧ "-h" ∉ ["--foo"] ∧
    ((main bareWorld ["node", "launcher.js", "--foo"]).exitCode = some 1 ∧
     (main bareWorld ["node", "launcher.js", "--foo"]).trace = credentialErrors ∧
     ∀ e ∈ (main bareWorld ["node", "launcher.js", "--foo"]).trace, ∀ cmd,
       e ≠ Event.whichLookup cmd ∧ ∀ a, e ≠ Event.spawnSync cmd a) :=
  have henv : ∀ v, ("ELEVENLABS_API_KEY", v) ∉ bareWorld.env := by
    intro v hv
    simp [bareWorld] at hv
  ⟨henv, by decide, by decide, by decide,
   main_missing_credential bareWorld "node" "launcher.js" ["--foo"] henv
     (by decide) (by decide) (by decide)⟩

/-- C3: whenever the arguments contain `--help` or `-h`, at any position, the
credential check of `main` passes, whatever the environment holds, and the run
goes on with interpreter resolution; this includes a help token that directly
follows `--api-key` and is taken away as its value. -/
theorem main_help_bypasses_credential_check (w : World) (node script : String)
    (args : List String) (h : "--help" ∈ args ∨ "-h" ∈ args) :
    credentialMissing (parseArgs w (node :: script :: args)).1
        (parseArgs w (node :: script :: args)).2 = false ∧
    (∃ rest, (main w (node :: script :: args)).trace = (findPython w).1 ++ rest) ∧
    ∃ rest, (main w (node :: script :: args)).trace = Event.whichLookup "python3" :: rest := by
  have hc : credentialMissing (parseArgs w (node :: script :: args)).1
      (parseArgs w (node :: script :: args)).2 = false := by
    rcases parseArgs_cases w node script args with hargs | hkey
    · rw [hargs]
      rcases h with h | h
      · simp [credentialMissing, (includes_eq_true_iff args "--help").mpr h]
      · simp [credentialMissing, (includes_eq_true_iff args "-h").mpr h]
    · simp [credentialMissing, hkey]
  have hpre : ∃ rest, (main w (node :: script :: args)).trace = (findPython w).1 ++ rest := by
    cases hf : (findPython w).2 with
    | error message =>
      rw [main_not_found w _ message hc hf]
      exact ⟨_, rfl⟩
    | ok pythonPath =>
      rw [main_found w _ pythonPath hc hf]
      exact ⟨_, rfl⟩
  refine ⟨hc, hpre, ?_⟩
  obtain ⟨rest, hrest⟩ := hpre
  obtain ⟨t, ht⟩ := findPython_trace_head w
  exact ⟨t ++ rest, by rw [hrest, ht]; rfl⟩

/-- Witness of `main_help_bypasses_credential_check`: no secret in the
environment and the arguments `--api-key --help`. -/
theorem main_help_bypasses_credential_check_witness :
    ("--help" ∈ ["--api-key", "--help"] ∨ "-h" ∈ ["--api-key", "--help"]) ∧
    (credentialMissing (parseArgs bareWorld ["node", "launcher.js", "--api-key", "--help"]).1
        (parseArgs bareWorld ["node", "launcher.js", "--api-key", "--help"]).2 = false ∧
     (∃ rest, (main bareWorld ["node", "launcher.js", "--api-key", "--help"]).trace
        = (findPython bareWorld).1 ++ rest) ∧
     ∃ rest, (main bareWorld ["node", "launcher.js", "--api-key", "--help"]).trace
        = Event.whichLookup "python3" :: rest) :=
  ⟨Or.inl (by decide),
   main_help_bypasses_credential_check bareWorld "node" "launcher.js"
     ["--api-key", "--help"] (Or.inl (by decide))⟩

/-! ## The exit code of the delegate -/

/-- C4: when the delegate has been launched and its `exit` event carries the
numeric code `c`, zero included, `main` exits with exactly `c`. -/
theorem main_propagates_child_exit_code (w : World) (argv : List String) (c : Nat)
    (hchild : w.child = some (ChildEvent.exit (some c)))
    (hspawn : ∃ cmd a d e, Event.spawnChild cmd a d e ∈ (main w argv).trace) :
    (main w argv).exitCode = some c := by
  obtain ⟨cmd, a, d, e, h⟩ := hspawn
  rw [exitCode_of_spawned w argv cmd a d e h, hchild]
  by_cases hz : c = 0
  · simp [onChild, hz]
  · simp [onChild, hz]

/-- Witness of `main_propagates_child_exit_code`: a server that exits with
code 7 makes the launcher exit with 7. -/
theorem main_propagates_child_exit_code_witness :
    sampleWorld.child = some (ChildEvent.exit (some 7)) ∧
    (∃ cmd a d e, Event.spawnChild cmd a d e ∈
        (main sampleWorld ["node", "launcher.js", "--port", "80"]).trace) ∧
    (main sampleWorld ["node", "launcher.js", "--port", "80"]).exitCode = some 7 :=
  have hspawn : ∃ cmd a d e, Event.spawnChild cmd a d e ∈
      (main sampleWorld ["node", "launcher.js", "--port", "80"]).trace :=
    ⟨"/usr/bin/python", ["-m", "elevenlabs_mcp", "--port", "80"], "/pkg/bin/..",
      [("PATH", "/usr/bin"), ("ELEVENLABS_API_KEY", "OLD")], by decide⟩
  ⟨rfl, hspawn,
   main_propagates_child_exit_code sampleWorld ["node", "launcher.js", "--port", "80"] 7
     rfl hspawn⟩

/-- C5 as stated fails: on the sample machine the server is launched and ended
by a signal, its `exit` event carries no code, and the launcher exits with
code 0, which is not a non-zero code. -/
theorem signalled_child_exit_code_zero :
    signalWorld.child = some (ChildEvent.exit none) ∧
    Event.spawnChild "/usr/bin/python" ["-m", "elevenlabs_mcp"] "/pkg/bin/.."
        [("PATH", "/usr/bin"), ("ELEVENLABS_API_KEY", "OLD")] ∈
      (main signalWorld ["node", "launcher.js"]).trace ∧
    (main signalWorld ["node", "launcher.js"]).exitCode = some 0 ∧
    ¬ ∃ n, n ≠ 0 ∧ (main signalWorld ["node", "launcher.js"]).exitCode = some n := by
  have h0 : (main signalWorld ["node", "launcher.js"]).exitCode = some 0 := by decide
  refine ⟨rfl, by decide, h0, ?_⟩
  rintro ⟨n, hn, h⟩
  rw [h0] at h
  exact hn (Option.some.inj h).symm

/-- C5, amended: when the delegate has been launched and its `exit` event
carries no numeric code, `main` exits with the fixed code 0. -/
theorem main_exit_zero_on_signalled_child (w : World) (argv : List String)
    (hchild : w.child = some (ChildEvent.exit none))
    (hspawn : ∃ cmd a d e, Event.spawnChild cmd a d e ∈ (main w argv).trace) :
    (main w argv).exitCode = some 0 := by
  obtain ⟨cmd, a, d, e, h⟩ := hspawn
  rw [exitCode_of_spawned w argv cmd a d e h, hchild]
  rfl

/-- Witness of `main_exit_zero_on_signalled_child` on the sample machine whose
server is ended by a signal. -/
theorem main_exit_zero_on_signalled_child_witness :
    signalWorld.child = some (ChildEvent.exit none) ∧
    (∃ cmd a d e, Event.spawnChild cmd a d e ∈
        (main signalWorld ["node", "launcher.js", "--port", "80"]).trace) ∧
    (main signalWorld ["node", "launcher.js", "--port", "80"]).exitCode = some 0 :=
  have hspawn : ∃ cmd a d e, Event.spawnChild cmd a d e ∈
      (main signalWorld ["node", "launcher.js", "--port", "80"]).trace :=
    ⟨"/usr/bin/python", ["-m", "elevenlabs_mcp", "--port", "80"], "/pkg/bin/..",
      [("PATH", "/usr/bin"), ("ELEVENLABS_API_KEY", "OLD")], by decide⟩
  ⟨rfl, hspawn,
   main_exit_zero_on_signalled_child signalWorld ["node", "launcher.js", "--port", "80"]
     rfl hspawn⟩

/-! ## The dependency check -/

theorem spawnSync_not_mem_delegate (w : World) (pythonPath : String) (args : List String)
    (env : Env) (cmd : String) (a : List String) :
    Event.spawnSync cmd a ∉ (delegate w pythonPath args env).trace := by
  rcases hc : w.child with _ | ⟨m⟩ | ⟨code⟩ <;> simp [delegate, onChild, hc]

theorem setupRun_not_mem_findPython (w : World) : setupRun w ∉ (findPython w).1 := by
  intro h
  obtain ⟨c, hmem, hc | hc⟩ := findPython_trace w _ h
  · cases hc
  · simp only [setupRun, Event.spawnSync.injEq] at hc
    obtain ⟨rfl, -⟩ := hc
    revert hmem
    decide

theorem fallback_not_mem_findPython (w : World) :
    Event.consoleError fallbackMessage ∉ (findPython w).1 := by
  intro h
  obtain ⟨c, -, hc | hc⟩ := findPython_trace w _ h <;> cases hc

/-- C9: after the credential check and a successful resolution, the
installation procedure is run exactly when the status of the import check is
not 0; and when the installation then also reports a status that is not 0,
`main` exits with code 1, prints the manual fallback instruction exactly once
and never launches the delegate. -/
theorem main_install_iff_import_check_fails (w : World) (argv : List String)
    (pythonPath : String)
    (hcred : credentialMissing (parseArgs w argv).1 (parseArgs w argv).2 = false)
    (hres : (findPython w).2 = Except.ok pythonPath) :
    (setupRun w ∈ (main w argv).trace ↔ w.importStatus pythonPath ≠ some 0) ∧
    (w.importStatus pythonPath ≠ some 0 → w.setupStatus ≠ some 0 →
      (main w argv).exitCode = some 1 ∧
      (main w argv).trace.count (Event.consoleError fallbackMessage) = 1 ∧
      ∀ cmd a d e, Event.spawnChild cmd a d e ∉ (main w argv).trace) := by
  have hmain := main_found w argv pythonPath hcred hres
  have hnd := spawnSync_not_mem_delegate w pythonPath (parseArgs w argv).2
    (childEnv w (parseArgs w argv).1) "node"
    [w.pathJoin [w.dirname, "..", "scripts", "setup.js"]]
  constructor
  · rw [hmain]
    simp only [List.mem_append, setupRun_not_mem_findPython, false_or]
    by_cases h1 : w.importStatus pythonPath = some 0
    · rw [ensure_present w pythonPath _ _ h1]
      simp only [List.mem_cons, h1, ne_eq, not_true_eq_false, iff_false, not_or]
      exact ⟨by simp [setupRun, importCheck], hnd⟩
    · by_cases h2 : w.setupStatus = some 0
      · rw [ensure_installed w pythonPath _ _ h1 h2]
        simp [h1]
      · rw [ensure_install_failed w pythonPath _ _ h1 h2]
        simp [h1]
  · intro h1 h2
    refine ⟨?_, ?_, ?_⟩
    · rw [hmain, ensure_install_failed w pythonPath _ _ h1 h2]
    · rw [hmain, ensure_install_failed w pythonPath _ _ h1 h2]
      simp only [List.count_append,
        List.count_eq_zero.mpr (fallback_not_mem_findPython w), zero_add]
      simp [List.count_cons, importCheck, setupRun]
    · intro cmd a d e h
      obtain ⟨-, hf, hdeps, -⟩ := (spawnChild_mem_main w argv cmd a d e).mp h
      rw [hres] at hf
      cases hf
      rcases hdeps with h | h
      · exact h1 h
      · exact h2 h

/-- Witness of `main_install_iff_import_check_fails`: the import check and the
installation both report status 1. -/
theorem main_install_iff_import_check_fails_witness :
    credentialMissing (parseArgs brokenWorld ["node", "launcher.js"]).1
      (parseArgs brokenWorld ["node", "launcher.js"]).2 = false ∧
    (findPython brokenWorld).2 = Except.ok "/usr/bin/python" ∧
    ((setupRun brokenWorld ∈ (main brokenWorld ["node", "launcher.js"]).trace ↔
        brokenWorld.importStatus "/usr/bin/python" ≠ some 0) ∧
     (brokenWorld.importStatus "/usr/bin/python" ≠ some 0 →
      brokenWorld.setupStatus ≠ some 0 →
        (main brokenWorld ["node", "launcher.js"]).exitCode = some 1 ∧
        (main brokenWorld ["node", "launcher.js"]).trace.count
          (Event.consoleError fallbackMessage) = 1 ∧
        ∀ cmd a d e, Event.spawnChild cmd a d e ∉
          (main brokenWorld ["node", "launcher.js"]).trace)) :=
  ⟨by decide, by rfl,
   main_install_iff_import_check_fails brokenWorld ["node", "launcher.js"]
     "/usr/bin/python" (by decide) (by rfl)⟩

/-! ## Forwarding of a flag without a value -/

theorem count_one_unique (x : String) :
    ∀ (xs : List String) (i j : Nat), xs.count x = 1 → xs[i]? = some x → xs[j]? = some x →
      i = j
  | [], i, _, _, hi, _ => by simp at hi
  | y :: ys, i, j, hc, hi, hj => by
    by_cases hy : y = x
    · subst hy
      have hz : ys.count y = 0 := by simpa [List.count_cons] using hc
      have hnot : y ∉ ys := List.count_eq_zero.mp hz
      cases i with
      | zero =>
        cases j with
        | zero => rfl
        | succ j =>
          exact absurd (List.mem_iff_getElem?.mpr ⟨j, by simpa using hj⟩) hnot
      | succ i =>
        exact absurd (List.mem_iff_getElem?.mpr ⟨i, by simpa using hi⟩) hnot
    · have hc' : ys.count x = 1 := by simpa [List.count_cons, hy] using hc
      cases i with
      | zero => exact absurd (by simpa using hi) hy
      | succ i =>
        cases j with
        | zero => exact absurd (by simpa using hj) hy
        | succ j =>
          have := count_one_unique x ys i j hc' (by simpa using hi) (by simpa using hj)
          omega

theorem not_mem_splice_two (x : String) :
    ∀ (xs : List String) (i : Nat), (∀ j, xs[j]? = some x → j = i) → x ∉ splice xs i 2
  | [], i, _ => by simp [splice]
  | y :: ys, 0, h => by
    intro hmem
    have hmem' : x ∈ ys := by
      simp only [splice, List.take_zero, List.nil_append, Nat.zero_add] at hmem
      exact List.mem_of_mem_drop (n := 1) (by simpa using hmem)
    obtain ⟨j, hj⟩ := List.mem_iff_getElem?.mp hmem'
    have := h (j + 1) (by simpa using hj)
    omega
  | y :: ys, i + 1, h => by
    have hy : y ≠ x := by
      intro e
      have := h 0 (by simp [e])
      omega
    have ih := not_mem_splice_two x ys i (fun j hj => by
      have := h (j + 1) (by simpa using hj)
      omega)
    have hd : List.drop (i + 1 + 2) (y :: ys) = List.drop (i + 2) ys := by
      rw [show i + 1 + 2 = (i + 2) + 1 by omega, List.drop_succ_cons]
    simp only [splice] at ih
    simp only [splice, List.take_succ_cons, List.cons_append, hd, List.mem_cons, not_or]
    exact ⟨fun e => hy e.symm, ih⟩

/-- C10 as stated fails: with a secret in the environment, a single `--api-key`
that is the last token, or that is followed by the empty string, stays in the
arguments forwarded to the delegate. -/
theorem valueless_flag_is_forwarded :
    (["--api-key"].count "--api-key" = 1 ∧
      Event.spawnChild "/usr/bin/python" ["-m", "elevenlabs_mcp", "--api-key"]
          "/pkg/bin/.." [("PATH", "/usr/bin"), ("ELEVENLABS_API_KEY", "OLD")] ∈
        (main sampleWorld ["node", "launcher.js", "--api-key"]).trace) ∧
    (["--api-key", ""].count "--api-key" = 1 ∧
      Event.spawnChild "/usr/bin/python" ["-m", "elevenlabs_mcp", "--api-key", ""]
          "/pkg/bin/.." [("PATH", "/usr/bin"), ("ELEVENLABS_API_KEY", "OLD")] ∈
        (main sampleWorld ["node", "launcher.js", "--api-key", ""]).trace) := by
  decide

/-- C10, amended: when `--api-key` occurs exactly once in the arguments and is
followed by a non-empty token, the arguments left after the flag handling, and
so the arguments of every launch of the delegate, do not contain `--api-key`. -/
theorem main_strips_valued_flag (w : World) (node script : String) (args : List String)
    (i : Nat) (v : String) (hcount : args.count "--api-key" = 1)
    (hi : args[i]? = some "--api-key") (hv : args[i + 1]? = some v) (hne : v ≠ "") :
    "--api-key" ∉ (parseArgs w (node :: script :: args)).2 ∧
    ∀ cmd a d e, Event.spawnChild cmd a d e ∈ (main w (node :: script :: args)).trace →
      "--api-key" ∉ a := by
  have huniq : ∀ j, args[j]? = some "--api-key" → j = i :=
    fun j hj => count_one_unique _ args j i hcount hj hi
  have hfirst : ∀ j, j < i → args[j]? ≠ some "--api-key" := by
    intro j hlt hj
    have := huniq j hj
    omega
  have hp := parseArgs_flag w node script args i v hi hfirst hv hne
  have hnot := not_mem_splice_two _ args i huniq
  constructor
  · rw [hp]
    exact hnot
  · intro cmd a d e h
    obtain ⟨-, -, -, ha, -, -⟩ := (spawnChild_mem_main w _ cmd a d e).mp h
    rw [ha, hp]
    simp only [List.cons_append, List.nil_append, List.mem_cons, not_or]
    exact ⟨by decide, by decide, hnot⟩

/-- Witness of `main_strips_valued_flag` on the arguments
`--verbose --api-key SECRET`. -/
theorem main_strips_valued_flag_witness :
    ["--verbose", "--api-key", "SECRET"].count "--api-key" = 1 ∧
    "--api-key" ∉
      (parseArgs bareWorld ["node", "launcher.js", "--verbose", "--api-key", "SECRET"]).2 ∧
    ∀ cmd a d e, Event.spawnChild cmd a d e ∈
        (main bareWorld ["node", "launcher.js", "--verbose", "--api-key", "SECRET"]).trace →
      "--api-key" ∉ a :=
  ⟨by decide,
   main_strips_valued_flag bareWorld "node" "launcher.js"
     ["--verbose", "--api-key", "SECRET"] 1 "SECRET" (by decide) (by decide) (by decide)
     (by decide)⟩

end ElevenLabsMcp
